import Mathlib

/-!
Verification of the swarm-jax actor pipeline.

Shallow embedding of the repository's core: the reversible residual layer
(`swarm.py`, class `ReversibleLayer`), the embedding/projection actors
(`swarm.py` class `EmbeddingLayer`; `embedding_layer.py` classes
`EmbeddingLayer` and `ProjLayer`), and the orchestrating training loop
(`swarm.py`, `train_sample`).

Tensors are flattened to lists of exact numbers (`ℤ` for the pure coupling
algebra, `ℚ` for the stateful actor model, `ℝ` for the loss numerics);
the autodiff engine, the haiku `apply` closures and the optimizer
update-rule are opaque capabilities per the spec's scope, passed in as
function parameters.
-/

namespace SwarmJax

/-! ## Reversible coupling — `swarm.py` lines 99–119

The inner `forward`/`reverse` of `ReversibleLayer.__init__`: the input's
feature axis is split into halves at `hidden // 2`, and the coupling
transforms `f`, `g` act on half-vectors.  Exact arithmetic over `ℤ`. -/

namespace ReversibleLayer

def forward (f g : List ℤ → List ℤ) (x : List ℤ) : List ℤ :=
  let hidden := x.length
  let x1 := x.take (hidden / 2)
  let x2 := x.drop (hidden / 2)
  let y1 := List.zipWith (· + ·) (f x2) x1
  let y2 := List.zipWith (· + ·) (g y1) x2
  y1 ++ y2

def reverse (f g : List ℤ → List ℤ) (y : List ℤ) : List ℤ :=
  let hidden := y.length
  let y1 := y.take (hidden / 2)
  let y2 := y.drop (hidden / 2)
  let x2 := List.zipWith (· - ·) y2 (g y1)
  let x1 := List.zipWith (· - ·) y1 (f x2)
  x1 ++ x2

end ReversibleLayer

/-- Subtracting back an elementwise addend recovers the other operand. -/
lemma zipWith_add_sub_cancel :
    ∀ (a b : List ℤ), a.length = b.length →
      List.zipWith (· - ·) (List.zipWith (· + ·) a b) a = b := by
  intro a
  induction a with
  | nil =>
    intro b h
    rw [List.eq_nil_of_length_eq_zero h.symm]
    simp
  | cons x xs ih =>
    intro b h
    cases b with
    | nil => simp at h
    | cons y ys =>
      simp only [List.zipWith_cons_cons, add_sub_cancel_left, List.cons.injEq, true_and]
      exact ih ys (by simpa using h)

/-- Unfolds `reverse` on a concatenation of two equal-length halves. -/
lemma reverse_append_halves (f g : List ℤ → List ℤ) (y1 y2 : List ℤ) (n : ℕ)
    (h1 : y1.length = n) (h2 : y2.length = n) :
    ReversibleLayer.reverse f g (y1 ++ y2) =
      List.zipWith (· - ·) y1 (f (List.zipWith (· - ·) y2 (g y1))) ++
      List.zipWith (· - ·) y2 (g y1) := by
  simp only [ReversibleLayer.reverse]
  have hd : (y1 ++ y2).length / 2 = n := by
    rw [List.length_append, h1, h2]; omega
  rw [hd, List.take_left' h1, List.drop_left' h1]

/-- C1: For every pair of shape-preserving coupling transforms `f`, `g`
(the layer's parameterised transforms) and every input `x` whose feature
dimension is even (`length x = 2 * n`), the `ReversibleLayer` round-trip
holds exactly in exact arithmetic:
`reverse f g (forward f g x) = x` (`swarm.py` lines 99–119). -/
theorem claim1_reversible_roundtrip (f g : List ℤ → List ℤ)
    (hf : ∀ l : List ℤ, (f l).length = l.length)
    (hg : ∀ l : List ℤ, (g l).length = l.length)
    (n : ℕ) (x : List ℤ) (hx : x.length = 2 * n) :
    ReversibleLayer.reverse f g (ReversibleLayer.forward f g x) = x := by
  have hdiv : x.length / 2 = n := by rw [hx]; omega
  have hx1 : (x.take n).length = n := by rw [List.length_take, hx]; omega
  have hx2 : (x.drop n).length = n := by rw [List.length_drop, hx]; omega
  have hy1 : (List.zipWith (· + ·) (f (x.drop n)) (x.take n)).length = n := by
    rw [List.length_zipWith, hf, hx2, hx1]; omega
  have hy2 : (List.zipWith (· + ·)
      (g (List.zipWith (· + ·) (f (x.drop n)) (x.take n))) (x.drop n)).length = n := by
    rw [List.length_zipWith, hg, hy1, hx2]; omega
  have hfwd : ReversibleLayer.forward f g x =
      List.zipWith (· + ·) (f (x.drop n)) (x.take n) ++
      List.zipWith (· + ·)
        (g (List.zipWith (· + ·) (f (x.drop n)) (x.take n))) (x.drop n) := by
    simp only [ReversibleLayer.forward, hdiv]
  rw [hfwd, reverse_append_halves f g _ _ n hy1 hy2]
  have hx2eq : List.zipWith (· - ·)
      (List.zipWith (· + ·)
        (g (List.zipWith (· + ·) (f (x.drop n)) (x.take n))) (x.drop n))
      (g (List.zipWith (· + ·) (f (x.drop n)) (x.take n))) = x.drop n :=
    zipWith_add_sub_cancel _ _ (by rw [hg, hy1, hx2])
  rw [hx2eq]
  have hx1eq : List.zipWith (· - ·)
      (List.zipWith (· + ·) (f (x.drop n)) (x.take n)) (f (x.drop n)) = x.take n :=
    zipWith_add_sub_cancel _ _ (by rw [hf, hx2, hx1])
  rw [hx1eq, List.take_append_drop]

/-- Concrete instance of C1: identity couplings on a length-2 vector. -/
theorem claim1_witness :
    ReversibleLayer.reverse id id (ReversibleLayer.forward id id [(1 : ℤ), 2]) =
      [(1 : ℤ), 2] :=
  claim1_reversible_roundtrip id id (fun _ => rfl) (fun _ => rfl) 1 [(1 : ℤ), 2] rfl

/-! ## Actor state — the `dict` built by `init_fn`
(`swarm.py` lines 140–154 and 247–261, `embedding_layer.py` lines 46–60
and 158–172; all four `init_fn`s build the same record).

Tensor trees are flattened to `List ℚ`; `grad_count` starts as
`np.array(0)` and is incremented by `1` or (in `embedding_layer.py`) by
`0.5`, so it lives in `ℚ`.  Device placement (`jax.device_put`) has no
functional content and is not modelled. -/

structure ActorState where
  step : ℕ
  rng : ℕ
  optState : List ℚ
  gradAcc : List ℚ
  gradCount : ℚ
  params : List ℚ
  deriving DecidableEq, Repr

/-- The optimizer collaborator (`optax.GradientTransformation`): opaque
`init`/`update` pair, treated as pure (spec §6). -/
structure Optimizer where
  init : List ℚ → List ℚ
  update : List ℚ → List ℚ → List ℚ × List ℚ

/-- Models `jax.tree_map(jnp.zeros_like, t)`. -/
def zerosLike (t : List ℚ) : List ℚ := t.map (fun _ => 0)

/-- Models `optax.apply_updates(params, updates)`: elementwise addition. -/
def applyUpdates (params updates : List ℚ) : List ℚ :=
  List.zipWith (· + ·) params updates

/-- The jitted `opt` (`swarm.py` lines 121–133 and 227–239; both bodies
are identical): divides `grad_acc` by `state['grad_count']`, feeds it to
the optimizer, applies the updates to `params`, zeroes `grad_acc` and
resets `grad_count` to 0. -/
def opt (O : Optimizer) (state : ActorState) : ActorState :=
  let gradCpu := state.gradAcc.map (fun x => x / state.gradCount)
  let p := O.update gradCpu state.optState
  { state with
      params := applyUpdates state.params p.1
      optState := p.2
      gradAcc := zerosLike state.gradAcc
      gradCount := 0 }

/-- The `step()` operation as the spec words it (§4.1): identical to
`opt` except that the divisor is guarded, `GradAccum / max(GradCount,1)`.
Used only to compare against the code's `opt`. -/
def specStep (O : Optimizer) (state : ActorState) : ActorState :=
  let gradCpu := state.gradAcc.map (fun x => x / max state.gradCount 1)
  let p := O.update gradCpu state.optState
  { state with
      params := applyUpdates state.params p.1
      optState := p.2
      gradAcc := zerosLike state.gradAcc
      gradCount := 0 }

/-- Source `init_fn` (`swarm.py` lines 140–154): fresh state with `step = 0`,
zeroed gradient accumulator and count, and optimizer state from
`optimizer.init(params)`.  The haiku parameter initialisation
`forward_fn.init(init_rng, data)` is the opaque `params` argument; rng
splitting carries no functional content here. -/
def init_fn (O : Optimizer) (rng : ℕ) (params : List ℚ) : ActorState :=
  { step := 0
    rng := rng
    optState := O.init params
    gradAcc := zerosLike params
    gradCount := 0
    params := params }

/-! ## ReversibleLayer actor functions (`swarm.py` lines 156–196)

The haiku `apply` closures and the `jax.vjp` of the forward transform are
the autodiff capability, opaque per spec §1/§9. -/

/-- Capabilities of one reversible layer: `forward_fn.apply`,
`reverse_fn.apply`, and the VJP of `forward_fn.apply` returning
`(weights_grad, x_grad)`. -/
structure RevCaps where
  fwdApply : List ℚ → List ℚ → List ℚ
  revApply : List ℚ → List ℚ → List ℚ
  fwdVjp : List ℚ → List ℚ → List ℚ → List ℚ × List ℚ

/-- Jitted `forward_fn` (`swarm.py` lines 156–160): reads only
`state['params']`, returns the layer output. -/
def forward_fn (C : RevCaps) (x : List ℚ) (state : ActorState) : List ℚ :=
  C.fwdApply state.params x

/-- Jitted `reverse_fn` (`swarm.py` lines 162–175): reconstructs `x` from
`y`, takes the VJP of the forward transform against `dy`, adds the weight
gradient into `grad_acc` and increments `grad_count` by 1. -/
def reverse_fn (C : RevCaps) (ydy : List ℚ × List ℚ) (state : ActorState) :
    (List ℚ × List ℚ) × ActorState :=
  let reconstrX := C.revApply state.params ydy.1
  let p := C.fwdVjp state.params reconstrX ydy.2
  ((reconstrX, p.2),
   { state with
       gradAcc := List.zipWith (· + ·) state.gradAcc p.1
       gradCount := state.gradCount + 1 })

/-! ## Embedding / projection actor functions
(`swarm.py` lines 263–305, `embedding_layer.py` lines 62–84 and 174–192) -/

/-- Capabilities of the embedding actor: `embed_fwd_fn.apply`, the
weights component of its VJP, `debed_fwd_fn.apply`, and the VJP of
`debed_loss_fn.apply` returning `(loss, (weights_grad, x_grad))`. -/
structure EmbedCaps where
  embedApply : List ℚ → List ℕ → List ℚ
  embedVjp : List ℚ → List ℕ → List ℚ → List ℚ
  debedApply : List ℚ → List ℚ → List ℚ
  debedLossVjp : List ℚ → List ℚ → List ℕ → ℚ × (List ℚ × List ℚ)

/-- Models `jnp.square(y - y_new).mean()`. -/
def mse (y yNew : List ℚ) : ℚ :=
  let d := List.zipWith (fun u v => (u - v) * (u - v)) y yNew
  d.sum / (d.length : ℚ)

/-- Jitted `embed_fwd_fn` (`swarm.py` lines 263–268): reads only
`state['params']`. -/
def embed_fwd_fn (E : EmbedCaps) (obs : List ℕ) (state : ActorState) : List ℚ :=
  E.embedApply state.params obs

/-- Jitted `embed_grad_fn` (`swarm.py` lines 270–285): recomputes the
embedding, takes its VJP against `dy`, adds the weight gradient into
`grad_acc`, increments `grad_count` by 1, and returns the diagnostic
`diff = jnp.square(y - y_new).mean()`. -/
def embed_grad_fn (E : EmbedCaps) (obs : List ℕ) (ydy : List ℚ × List ℚ)
    (state : ActorState) : ℚ × ActorState :=
  let yNew := E.embedApply state.params obs
  let weightsGrad := E.embedVjp state.params obs ydy.2
  (mse ydy.1 yNew,
   { state with
       gradAcc := List.zipWith (· + ·) state.gradAcc weightsGrad
       gradCount := state.gradCount + 1 })

/-- Jitted `debed_fwd_fn` (`swarm.py` lines 287–292). -/
def debed_fwd_fn (E : EmbedCaps) (h : List ℚ) (state : ActorState) : List ℚ :=
  E.debedApply state.params h

/-- Jitted `debed_grad_fn` (`swarm.py` lines 294–305): VJP of the loss
w.r.t. params and hidden, accumulate the weight gradient, increment
`grad_count` by 1, return `(hidden, x_grad, loss, state)`. -/
def debed_grad_fn (E : EmbedCaps) (h : List ℚ) (target : List ℕ)
    (state : ActorState) : List ℚ × List ℚ × ℚ × ActorState :=
  let p := E.debedLossVjp state.params h target
  (h, p.2.2, p.1,
   { state with
       gradAcc := List.zipWith (· + ·) state.gradAcc p.2.1
       gradCount := state.gradCount + 1 })

namespace EmbeddingLayerPy

/-- Jitted `embed_grad_fn` of `embedding_layer.py` (lines 69–84).
Identical to the `swarm.py` version except that line 82 increments
`grad_count` by `0.5`, not by 1. -/
def embed_grad_fn (E : EmbedCaps) (obs : List ℕ) (ydy : List ℚ × List ℚ)
    (state : ActorState) : ℚ × ActorState :=
  let yNew := E.embedApply state.params obs
  let weightsGrad := E.embedVjp state.params obs ydy.2
  (mse ydy.1 yNew,
   { state with
       gradAcc := List.zipWith (· + ·) state.gradAcc weightsGrad
       gradCount := state.gradCount + 1 / 2 })

end EmbeddingLayerPy

namespace ProjLayerPy

/-- Jitted `debed_grad_fn` of `embedding_layer.py`'s `ProjLayer`
(lines 181–192): same shape as the `swarm.py` version, increments
`grad_count` by 1. -/
def debed_grad_fn (E : EmbedCaps) (h : List ℚ) (target : List ℕ)
    (state : ActorState) : List ℚ × List ℚ × ℚ × ActorState :=
  let p := E.debedLossVjp state.params h target
  (h, p.2.2, p.1,
   { state with
       gradAcc := List.zipWith (· + ·) state.gradAcc p.2.1
       gradCount := state.gradCount + 1 })

end ProjLayerPy

/-! ## The actor methods as a state machine

The non-jitted wrapper methods (`swarm.py` lines 187–196, 324–344;
`embedding_layer.py` lines 101–117): `forward`, `embed_forward`,
`debed_forward`, `get_params`, `get_accum` do not reassign `self.state`;
the gradient methods and `opt` replace it wholesale with the state
returned by the jitted function. -/

inductive Op where
  | revForward (C : RevCaps) (x : List ℚ)
  | revBackward (C : RevCaps) (ydy : List ℚ × List ℚ)
  | embedForward (E : EmbedCaps) (obs : List ℕ)
  | embedGrad (E : EmbedCaps) (obs : List ℕ) (ydy : List ℚ × List ℚ)
  | debedForward (E : EmbedCaps) (h : List ℚ)
  | debedGrad (E : EmbedCaps) (h : List ℚ) (tgt : List ℕ)
  | getParams
  | getAccum
  | optStep (O : Optimizer)

def applyOp : Op → ActorState → ActorState
  | .revForward _ _, st => st
  | .revBackward C ydy, st => (reverse_fn C ydy st).2
  | .embedForward _ _, st => st
  | .embedGrad E obs ydy, st => (embed_grad_fn E obs ydy st).2
  | .debedForward _ _, st => st
  | .debedGrad E h t, st => (debed_grad_fn E h t st).2.2.2
  | .getParams, st => st
  | .getAccum, st => st
  | .optStep O, st => opt O st

def Op.isStep : Op → Bool
  | .optStep _ => true
  | _ => false

def Op.isGrad : Op → Bool
  | .revBackward _ _ => true
  | .embedGrad _ _ _ => true
  | .debedGrad _ _ _ => true
  | _ => false

/-- A sequence of method calls against one actor, applied in order. -/
def run (ops : List Op) (st : ActorState) : ActorState :=
  ops.foldl (fun s op => applyOp op s) st

/-! Concrete instances used to exercise the theorems. -/

/-- A pass-through optimizer: the update is the averaged gradient itself. -/
def Oid : Optimizer := ⟨fun p => p, fun gc s => (gc, s)⟩

/-- Identity-ish reversible-layer capabilities. -/
def caps0 : RevCaps := ⟨fun _ x => x, fun _ y => y, fun _ _ dy => ([], dy)⟩

/-- Trivial embedding capabilities. -/
def ecaps0 : EmbedCaps :=
  ⟨fun _ _ => [], fun _ _ _ => [], fun _ _ => [], fun _ _ _ => (0, ([], []))⟩

/-- A state with a pending gradient but `grad_count = 0`. -/
def exState : ActorState := ⟨0, 0, [], [1], 0, [0]⟩

lemma zerosLike_eq_replicate (t : List ℚ) :
    zerosLike t = List.replicate t.length 0 := by
  induction t with
  | nil => rfl
  | cons a l ih => simp only [zerosLike, List.map_cons, List.length_cons,
      List.replicate] at ih ⊢; rw [ih]

/-- C2 counterexample: The code's `opt` divides the accumulator by
`grad_count` with no `max(·,1)` guard: at a state with `grad_count = 0`
and `grad_acc = [1]`, `opt` disagrees with the spec's guarded `step()`
(in ℚ the unguarded quotient collapses to 0; in the floating-point code
it is a division by zero). -/
theorem claim2_counterexample : opt Oid exState ≠ specStep Oid exState := by
  intro hEq
  have h := congrArg ActorState.params hEq
  norm_num [opt, specStep, Oid, exState, applyUpdates, zerosLike] at h

/-- C2 amended: `opt` divides GradAccum by `grad_count` as stored
(no `max(·,1)` guard), applies the optimizer update-rule to Params via
`optax.apply_updates`, and leaves the post-state with `grad_count = 0`
and `grad_acc` the all-zero tree of Params' shape. -/
theorem claim2_step_postconditions (O : Optimizer) (st : ActorState)
    (h : st.gradAcc.length = st.params.length) :
    (opt O st).gradCount = 0 ∧
    (opt O st).gradAcc = List.replicate st.params.length 0 ∧
    (opt O st).params =
      applyUpdates st.params
        (O.update (st.gradAcc.map (fun x => x / st.gradCount)) st.optState).1 := by
  refine ⟨rfl, ?_, rfl⟩
  rw [← h]
  exact zerosLike_eq_replicate st.gradAcc

/-- A state `opt` is exercised on for C2's postconditions. -/
def wit2State : ActorState := ⟨0, 0, [], [2], 1, [5]⟩

theorem claim2_witness :
    (opt Oid wit2State).gradCount = 0 ∧
    (opt Oid wit2State).gradAcc = List.replicate wit2State.params.length 0 ∧
    (opt Oid wit2State).params =
      applyUpdates wit2State.params
        (Oid.update (wit2State.gradAcc.map (fun x => x / wit2State.gradCount))
          wit2State.optState).1 :=
  claim2_step_postconditions Oid wit2State (by decide)

/-- C3 counterexample: `embedding_layer.py` line 82 increments
`grad_count` by `0.5`, not by 1. -/
theorem claim3_counterexample :
    ((EmbeddingLayerPy.embed_grad_fn ecaps0 [] ([], []) exState).2).gradCount ≠
      exState.gradCount + 1 := by
  norm_num [EmbeddingLayerPy.embed_grad_fn, exState]

/-- C3 amended: Every gradient-accumulating call adds its weight
gradient elementwise into GradAccum; `swarm.py`'s `reverse_fn`,
`embed_grad_fn`, `debed_grad_fn` and `embedding_layer.py`'s
`ProjLayer.debed_grad_fn` increment GradCount by exactly 1 per call,
while `embedding_layer.py`'s `EmbeddingLayer.embed_grad_fn` increments
it by `0.5`. -/
theorem claim3_grad_accumulation (C : RevCaps) (E : EmbedCaps)
    (obs tgt : List ℕ) (ydy : List ℚ × List ℚ) (h : List ℚ) (st : ActorState) :
    ((reverse_fn C ydy st).2.gradAcc =
        List.zipWith (· + ·) st.gradAcc
          (C.fwdVjp st.params (C.revApply st.params ydy.1) ydy.2).1 ∧
      (reverse_fn C ydy st).2.gradCount = st.gradCount + 1) ∧
    ((embed_grad_fn E obs ydy st).2.gradAcc =
        List.zipWith (· + ·) st.gradAcc (E.embedVjp st.params obs ydy.2) ∧
      (embed_grad_fn E obs ydy st).2.gradCount = st.gradCount + 1) ∧
    ((debed_grad_fn E h tgt st).2.2.2.gradAcc =
        List.zipWith (· + ·) st.gradAcc (E.debedLossVjp st.params h tgt).2.1 ∧
      (debed_grad_fn E h tgt st).2.2.2.gradCount = st.gradCount + 1) ∧
    ((ProjLayerPy.debed_grad_fn E h tgt st).2.2.2.gradAcc =
        List.zipWith (· + ·) st.gradAcc (E.debedLossVjp st.params h tgt).2.1 ∧
      (ProjLayerPy.debed_grad_fn E h tgt st).2.2.2.gradCount = st.gradCount + 1) ∧
    ((EmbeddingLayerPy.embed_grad_fn E obs ydy st).2.gradAcc =
        List.zipWith (· + ·) st.gradAcc (E.embedVjp st.params obs ydy.2) ∧
      (EmbeddingLayerPy.embed_grad_fn E obs ydy st).2.gradCount =
        st.gradCount + 1 / 2) :=
  ⟨⟨rfl, rfl⟩, ⟨rfl, rfl⟩, ⟨rfl, rfl⟩, ⟨rfl, rfl⟩, ⟨rfl, rfl⟩⟩

lemma applyOp_params_frame (op : Op) (st : ActorState) (h : op.isStep = false) :
    (applyOp op st).params = st.params := by
  cases op <;> first | rfl | simp [Op.isStep] at h

lemma applyOp_state_frame (op : Op) (st : ActorState)
    (hs : op.isStep = false) (hg : op.isGrad = false) : applyOp op st = st := by
  cases op
  case revBackward => simp [Op.isGrad] at hg
  case embedGrad => simp [Op.isGrad] at hg
  case debedGrad => simp [Op.isGrad] at hg
  case optStep => simp [Op.isStep] at hs
  all_goals rfl

/-- C4 counterexample: `opt` is not a gradient call, yet it changes
GradAccum: it zeroes it. -/
theorem claim4_counterexample :
    Op.isGrad (Op.optStep Oid) = false ∧
    (run [Op.optStep Oid] exState).gradAcc ≠ exState.gradAcc := by
  refine ⟨rfl, ?_⟩
  norm_num [run, applyOp, opt, Oid, exState, zerosLike]

/-- C4 amended: Over every sequence of method calls after init:
Params are changed only by a `step()`/`opt` call; GradAccum is changed
only by a gradient call (`embedGrad`, `debedGrad`, `backward`) or by
`step()`/`opt` (which zeroes it); the remaining operations (`forward`,
`embedForward`, `debedForward`, `getParams`, `getAccum`) leave the whole
state unchanged.  Each state change replaces the state record wholesale
(the model's transitions are total functions on `ActorState`). -/
theorem claim4_mutation_frame (ops : List Op) (st : ActorState) :
    ((∀ op ∈ ops, op.isStep = false) → (run ops st).params = st.params) ∧
    ((∀ op ∈ ops, op.isStep = false ∧ op.isGrad = false) → run ops st = st) := by
  induction ops generalizing st with
  | nil => exact ⟨fun _ => rfl, fun _ => rfl⟩
  | cons op rest ih =>
    constructor
    · intro h
      show (run rest (applyOp op st)).params = st.params
      rw [(ih (applyOp op st)).1 (fun o ho => h o (List.mem_cons_of_mem op ho))]
      exact applyOp_params_frame op st (h op (List.mem_cons_self op rest))
    · intro h
      show run rest (applyOp op st) = st
      rw [applyOp_state_frame op st (h op (List.mem_cons_self op rest)).1
        (h op (List.mem_cons_self op rest)).2]
      exact (ih st).2 (fun o ho => h o (List.mem_cons_of_mem op ho))

theorem claim4_witness :
    ((run [Op.getParams, Op.revForward caps0 [1], Op.revBackward caps0 ([], [])]
        exState).params = exState.params) ∧
    (run [Op.getParams, Op.revForward caps0 [1]] exState = exState) :=
  ⟨(claim4_mutation_frame
      [Op.getParams, Op.revForward caps0 [1], Op.revBackward caps0 ([], [])]
      exState).1
    (by intro o ho; fin_cases ho <;> rfl),
   (claim4_mutation_frame [Op.getParams, Op.revForward caps0 [1]] exState).2
    (by intro o ho; fin_cases ho <;> exact ⟨rfl, rfl⟩)⟩

/-- C5: The jitted `forward_fn` reads only `state['params']`: two
states agreeing on Params give the same output for the same `x`; and the
actor method `forward` (`swarm.py` lines 187–188) never reassigns
`self.state`, so the whole state — in particular GradAccum and
GradCount — is unchanged by the call. -/
theorem claim5_forward_pure (C : RevCaps) (x : List ℚ) (st st' : ActorState)
    (h : st.params = st'.params) :
    forward_fn C x st = forward_fn C x st' ∧
    applyOp (Op.revForward C x) st = st :=
  ⟨by simp [forward_fn, h], rfl⟩

/-- Two states that differ everywhere except Params. -/
def wit5A : ActorState := ⟨1, 2, [3], [4], 5, [7]⟩

/-- See `wit5A`. -/
def wit5B : ActorState := ⟨8, 9, [], [6], 0, [7]⟩

theorem claim5_witness :
    forward_fn caps0 [1] wit5A = forward_fn caps0 [1] wit5B ∧
    applyOp (Op.revForward caps0 [1]) wit5A = wit5A :=
  claim5_forward_pure caps0 [1] wit5A wit5B rfl

/-! ## The orchestrating training step (`swarm.py` lines 387–422)

Ray actor handles are modelled as the functions their methods compute;
`ray.wait` is synchronisation only and has no functional content. -/

/-- One pipeline stage as the orchestrator sees it: its `forward.remote`
and `backward.remote` methods. -/
structure LayerHandle where
  fwd : List ℚ → List ℚ
  bwd : List ℚ × List ℚ → List ℚ × List ℚ

/-- Source `train_sample` (`swarm.py` lines 387–415, `dbg = False` path):
embed, fold forward through the layers in list order, seed the gradient
with `debed_grad`, fold backward over `reversed(layers)`, close the loop
with `embed_grad`.  Returns `(loss, diff)`. -/
def train_sample (embedFwd : List ℕ → List ℚ)
    (debedGrad : List ℚ → List ℕ → (List ℚ × List ℚ) × ℚ)
    (embedGrad : List ℕ → List ℚ × List ℚ → ℚ)
    (layers : List LayerHandle) (obs target : List ℕ) : ℚ × ℚ :=
  let x := embedFwd obs
  let x := layers.foldl (fun a l => l.fwd a) x
  let p := debedGrad x target
  let ydy := (layers.reverse).foldl (fun a l => l.bwd a) p.1
  let err := embedGrad obs ydy
  (p.2, err)

/-- The backward chain as the spec words it (§4.4 step 4): tail-to-head,
each call consuming the pair produced by the previous (more downstream)
call, starting from the `debed_grad` seed. -/
def backwardChainSpec (layers : List LayerHandle) (seed : List ℚ × List ℚ) :
    List ℚ × List ℚ :=
  layers.foldr (fun l a => l.bwd a) seed

/-- C6: Within one training step, after the `debed_grad` seed, the
orchestrator applies the layers' `backward` in exactly the reverse of
the forward order — the tail layer first, the head layer last, each call
consuming the previous call's `(reconstructedX, gradient)` pair — and
passes the final pair to `embed_grad`. -/
theorem claim6_backward_order (embedFwd : List ℕ → List ℚ)
    (debedGrad : List ℚ → List ℕ → (List ℚ × List ℚ) × ℚ)
    (embedGrad : List ℕ → List ℚ × List ℚ → ℚ)
    (layers : List LayerHandle) (obs target : List ℕ) :
    train_sample embedFwd debedGrad embedGrad layers obs target =
      ((debedGrad (layers.foldl (fun a l => l.fwd a) (embedFwd obs)) target).2,
       embedGrad obs
         (backwardChainSpec layers
           (debedGrad (layers.foldl (fun a l => l.fwd a) (embedFwd obs))
             target).1)) := by
  simp only [train_sample, backwardChainSpec, List.foldl_reverse]

/-! ## Actor construction (`swarm.py` lines 177–185,
`embedding_layer.py` lines 86–99)

Both constructors invoke the jitted functions once to trigger
compilation; the calls' results are discarded (`swarm.py`) or
overwritten by a final re-`init_fn` with the same rng
(`embedding_layer.py` lines 98–99), so the first real training call
observes the `init_fn` state. -/

/-- Tail of `ReversibleLayer.__init__` (`swarm.py` lines 177–185): the
warm-up calls to `forward_fn`, `reverse_fn` and `opt` do not reassign
`self.state`. -/
def construct (O : Optimizer) (C : RevCaps) (rng : ℕ) (params : List ℚ)
    (data : List ℚ) : ActorState :=
  let st := init_fn O rng params
  let _ := forward_fn C data st
  let _ := reverse_fn C (data, zerosLike data) st
  let _ := opt O st
  st

/-- Tail of `EmbeddingLayer.__init__` (`embedding_layer.py` lines 86–99):
after the warm-ups, `self.state` is assigned `opt_state(...)` (an
external `swarm_layer` helper, passed here opaquely) and then
immediately re-assigned `init_fn(master_rng, obs)`. -/
def el_construct (O : Optimizer) (E : EmbedCaps)
    (optStateFn : ActorState → ActorState) (rng : ℕ) (params : List ℚ)
    (obs : List ℕ) : ActorState :=
  let st := init_fn O rng params
  let e := embed_fwd_fn E obs st
  let _ := EmbeddingLayerPy.embed_grad_fn E obs (e, e) st
  let _ := optStateFn st
  init_fn O rng params

/-- C9: Immediately after construction, both actors' visible state
has `grad_count = 0`, `grad_acc` the all-zero tree of Params' shape,
`step = 0`, and parameters exactly the freshly initialised ones — the
compilation warm-up calls do not alter the state the first real
training call observes. -/
theorem claim9_construction_state (O : Optimizer) (C : RevCaps) (E : EmbedCaps)
    (optStateFn : ActorState → ActorState) (rng : ℕ) (params : List ℚ)
    (data : List ℚ) (obs : List ℕ) :
    ((construct O C rng params data).gradCount = 0 ∧
      (construct O C rng params data).gradAcc = List.replicate params.length 0 ∧
      (construct O C rng params data).step = 0 ∧
      (construct O C rng params data).params = params) ∧
    ((el_construct O E optStateFn rng params obs).gradCount = 0 ∧
      (el_construct O E optStateFn rng params obs).gradAcc =
        List.replicate params.length 0 ∧
      (el_construct O E optStateFn rng params obs).step = 0 ∧
      (el_construct O E optStateFn rng params obs).params = params) := by
  refine ⟨⟨rfl, ?_, rfl, rfl⟩, ⟨rfl, ?_, rfl, rfl⟩⟩ <;>
    exact zerosLike_eq_replicate params

/-! ## Checkpoint restore (`embedding_layer.py` lines 122–127 and
231–236; both `load` bodies are identical) -/

/-- Modelled from the spec: `load_checkpoint` lives in `swarm_layer.py`,
which is not under `src/`.  Spec §6: the checkpoint store's `load(path)`
"returns the latest snapshot or signals absence"; a path is represented
by the snapshot lookup result it yields. -/
def load_checkpoint (snapshot : Option ActorState) : Option ActorState :=
  snapshot

/-- The actor method `load` (`embedding_layer.py` lines 122–127): when
the ckpt is truthy, replace the whole state and `return True`; otherwise
fall through to Python's implicit `return None`.  The return value is
therefore `Option Bool`: `some true` or `none` — never `some false`. -/
def load (snapshot : Option ActorState) (st : ActorState) :
    Option Bool × ActorState :=
  match load_checkpoint snapshot with
  | some ckpt => (some true, ckpt)
  | none => (none, st)

/-- C7 counterexample: With no snapshot present, `load` returns
Python's `None` — a falsy value, but not the value `False` the claim
names. -/
theorem claim7_counterexample :
    (load none exState).1 ≠ some false ∧ (load none exState).1 = none := by
  exact ⟨by decide, rfl⟩

/-- C7 amended: `load(path)` returns `None` (falsy, a non-fatal
no-op) and leaves the actor state unchanged when no snapshot exists at
the path; when a snapshot exists it replaces the full state with the
snapshot and returns `True`. -/
theorem claim7_load (snapshot : Option ActorState) (st : ActorState) :
    (snapshot = none → load snapshot st = (none, st)) ∧
    (∀ c, snapshot = some c → load snapshot st = (some true, c)) := by
  constructor
  · intro h; subst h; rfl
  · intro c h; subst h; rfl

theorem claim7_witness :
    load none exState = (none, exState) ∧
    load (some wit5A) exState = (some true, wit5A) :=
  ⟨(claim7_load none exState).1 rfl,
   (claim7_load (some wit5A) exState).2 wit5A rfl⟩

/-! ## The `swarm.py` embedding maps in full (`swarm.py` lines 205–225)

`embed_forward` looks rows up in the `hk.Embed(..., name="embedding")`
table; `debed_forward` computes `x @ embed` on `.embeddings` of a module
with the same haiku name, hence on the *same* parameter entry — the
actor's parameter tree holds a single embedding matrix. -/

/-- The `swarm.py` `EmbeddingLayer` parameter tree: haiku resolves both
modules named `"embedding"` to one table, so the tree has exactly one
entry. -/
structure EmbedParams where
  embedding : List (List ℚ)
  deriving DecidableEq

def scaleRow {α : Type} [Mul α] (c : α) (r : List α) : List α :=
  r.map (fun a => c * a)

def addRows {α : Type} [Add α] (a b : List α) : List α :=
  List.zipWith (· + ·) a b

/-- Computes `v @ E`, contracting over the rows of `E`: `Σₖ vₖ • Eₖ`. -/
def vecMat {α : Type} [Mul α] [Add α] [Zero α] (v : List α)
    (E : List (List α)) : List α :=
  (List.zipWith scaleRow v E).foldr addRows
    (List.replicate (E.headD []).length 0)

/-- Source `embed_forward` (`swarm.py` lines 205–207): table lookup by token id
(one row per token). -/
def embed_forward (p : EmbedParams) (x : List ℕ) : List (List ℚ) :=
  x.map (fun t => p.embedding.getD t [])

/-- Source `debed_forward` (`swarm.py` lines 209–213): `x @ embed` against the
same `"embedding"` table. -/
def debed_forward (p : EmbedParams) (h : List (List ℚ)) : List (List ℚ) :=
  h.map (fun v => vecMat v p.embedding)

/-- C10: In the `swarm.py` `EmbeddingLayer`, the output projection
shares weights with the input embedding: `debed_forward` computes
`h @ E` where `E` is the single embedding table of the parameter tree,
the same parameter `embed_forward` reads — so any two parameter trees
indistinguishable through `embed_forward` are indistinguishable through
`debed_forward` as well. -/
theorem claim10_weight_tying (p q : EmbedParams)
    (hlen : p.embedding.length = q.embedding.length)
    (hemb : ∀ obs : List ℕ, embed_forward p obs = embed_forward q obs) :
    (∀ h, debed_forward p h = debed_forward q h) ∧
    (∀ h, debed_forward p h = h.map (fun v => vecMat v p.embedding)) := by
  have hrow : ∀ t : ℕ, p.embedding.getD t [] = q.embedding.getD t [] := by
    intro t
    have h1 := hemb [t]
    simpa [embed_forward] using h1
  have hE : p.embedding = q.embedding := by
    apply List.ext_getElem hlen
    intro i h1 h2
    have h3 := hrow i
    rwa [List.getD_eq_getElem p.embedding [] h1,
      List.getD_eq_getElem q.embedding [] h2] at h3
  exact ⟨fun h => by simp [debed_forward, hE], fun h => rfl⟩

theorem claim10_witness :
    debed_forward ⟨[[1]]⟩ [[2]] = debed_forward ⟨[[1]]⟩ [[2]] ∧
    debed_forward ⟨[[(1 : ℚ)]]⟩ [[2]] =
      ([[(2 : ℚ)]]).map (fun v => vecMat v [[(1 : ℚ)]]) :=
  ⟨(claim10_weight_tying ⟨[[1]]⟩ ⟨[[1]]⟩ rfl (fun _ => rfl)).1 [[2]],
   (claim10_weight_tying ⟨[[1]]⟩ ⟨[[1]]⟩ rfl (fun _ => rfl)).2 [[2]]⟩

/-! ## The cross-entropy loss (`swarm.py` lines 215–225,
`embedding_layer.py` lines 142–151)

`debed_loss` is the quantity whose VJP primal `debed_grad` returns as
`loss` (`swarm.py` lines 294–305).  Exact real arithmetic stands in for
the floating-point code. -/

noncomputable def logSoftmax (l : List ℝ) : List ℝ :=
  l.map (fun x => x - Real.log ((l.map Real.exp).sum))

def oneHot (t n : ℕ) : List ℝ :=
  (List.range n).map (fun j => if j = t then (1 : ℝ) else 0)

/-- Computes `-jnp.sum(target_onehot * jax.nn.log_softmax(logits), axis=-1)` for
one position. -/
noncomputable def crossEntropy (logits : List ℝ) (t : ℕ) : ℝ :=
  -(List.zipWith (· * ·) (oneHot t logits.length) (logSoftmax logits)).sum

/-- Source `debed_loss` (`swarm.py` lines 215–225): per-position cross-entropy
of the logits `x @ embed` against the one-hot targets, averaged. -/
noncomputable def debed_loss (E : List (List ℝ)) (x : List (List ℝ))
    (target : List ℕ) : ℝ :=
  let per := List.zipWith (fun v t => crossEntropy (vecMat v E) t) x target
  per.sum / (per.length : ℝ)

lemma logSoftmax_mem_nonpos (l : List ℝ) : ∀ y ∈ logSoftmax l, y ≤ 0 := by
  intro y hy
  simp only [logSoftmax, List.mem_map] at hy
  obtain ⟨x, hx, rfl⟩ := hy
  have hxe : Real.exp x ≤ (l.map Real.exp).sum := by
    apply List.single_le_sum
    · intro a ha
      simp only [List.mem_map] at ha
      obtain ⟨b, _, rfl⟩ := ha
      exact (Real.exp_pos b).le
    · exact List.mem_map_of_mem Real.exp hx
  have hpos : 0 < (l.map Real.exp).sum := lt_of_lt_of_le (Real.exp_pos x) hxe
  have hlog : x ≤ Real.log ((l.map Real.exp).sum) :=
    (Real.le_log_iff_exp_le hpos).mpr hxe
  linarith

lemma zipWith_mul_sum_nonpos :
    ∀ (a b : List ℝ), (∀ x ∈ a, 0 ≤ x) → (∀ y ∈ b, y ≤ 0) →
      (List.zipWith (· * ·) a b).sum ≤ 0 := by
  intro a
  induction a with
  | nil => intro b _ _; simp
  | cons x xs ih =>
    intro b ha hb
    cases b with
    | nil => simp
    | cons y ys =>
      simp only [List.zipWith_cons_cons, List.sum_cons]
      have h1 : x * y ≤ 0 :=
        mul_nonpos_iff.mpr (Or.inl ⟨ha x (by simp), hb y (by simp)⟩)
      have h2 := ih ys (fun u hu => ha u (by simp [hu]))
        (fun v hv => hb v (by simp [hv]))
      linarith

lemma crossEntropy_nonneg (logits : List ℝ) (t : ℕ) :
    0 ≤ crossEntropy logits t := by
  apply neg_nonneg.mpr
  apply zipWith_mul_sum_nonpos
  · intro x hx
    simp only [oneHot, List.mem_map] at hx
    obtain ⟨j, _, rfl⟩ := hx
    split <;> norm_num
  · exact logSoftmax_mem_nonpos logits

lemma mem_zipWith_of_nonneg {α β : Type} (f : α → β → ℝ)
    (hf : ∀ u v, 0 ≤ f u v) :
    ∀ (a : List α) (b : List β), ∀ y ∈ List.zipWith f a b, 0 ≤ y := by
  intro a
  induction a with
  | nil => intro b y hy; simp at hy
  | cons x xs ih =>
    intro b y hy
    cases b with
    | nil => simp at hy
    | cons z zs =>
      simp only [List.zipWith_cons_cons, List.mem_cons] at hy
      rcases hy with rfl | hy
      · exact hf x z
      · exact ih zs y hy

/-- C8: For every embedding table, every hidden input and every
target sequence, the scalar loss `debed_grad` returns — the mean over
positions of `-Σ oneHot(target) * logSoftmax(logits)` — is non-negative
in exact arithmetic. -/
theorem claim8_loss_nonneg (E : List (List ℝ)) (x : List (List ℝ))
    (target : List ℕ) : 0 ≤ debed_loss E x target := by
  unfold debed_loss
  apply div_nonneg
  · exact List.sum_nonneg
      (mem_zipWith_of_nonneg _ (fun u v => crossEntropy_nonneg (vecMat u E) v)
        x target)
  · exact Nat.cast_nonneg _

end SwarmJax
